import Mathlib

/-!
Verification of the webhook-inbox server (`src/server.js`): a thin Express
facade over a single SQLite table `events(id, source, content_type, headers,
body, received_at)`.  The store is modelled as a `List Event` in insertion
order; SQL text comparison is modelled by Lean's `String` order (both compare
by code point / byte for UTF-8 text).
-/

namespace WebhookInbox

/-- One row of the `events` table (all columns are TEXT). -/
structure Event where
  id : String
  source : String
  content_type : String
  headers : String
  body : String
  received_at : String
deriving DecidableEq, Repr

/-! ### JS numeric parsing: `parseInt(s, 10)` and `x || default`

`parseInt` trims whitespace, accepts an optional sign, and reads the longest
prefix of decimal digits; it returns NaN (modelled as `none`) when there is no
digit.  `x || d` in JS falls back to `d` when `x` is NaN or 0. -/

/-- Value of the longest digit prefix, `none` when there is no digit
(`parseInt` returns NaN then). -/
def digitsValue (cs : List Char) : Option Nat :=
  let ds := cs.takeWhile Char.isDigit
  if ds.isEmpty then none
  else some (ds.foldl (fun a c => a * 10 + (c.toNat - Char.toNat '0')) 0)

/-- JS `parseInt(s, 10)`: `none` models NaN.  Leading whitespace is skipped;
anything after the digit prefix is ignored. -/
def parseIntJS (s : String) : Option Int :=
  match s.data.dropWhile Char.isWhitespace with
  | '-' :: rest => (digitsValue rest).map (fun n => -(n : Int))
  | '+' :: rest => (digitsValue rest).map (fun n => (n : Int))
  | cs => (digitsValue cs).map (fun n => (n : Int))

/-- JS `x || d` for a number `x` that may be NaN (`none`): NaN and 0 are falsy. -/
def jsOrDefault (x : Option Int) (d : Int) : Int :=
  match x with
  | none => d
  | some v => if v = 0 then d else v

/-- `const lim = Math.min(parseInt(limit, 10) || 50, 200)` (server.js line 60). -/
def effLimit (limit : String) : Int :=
  min (jsOrDefault (parseIntJS limit) 50) 200

/-- `const off = parseInt(offset, 10) || 0` (server.js line 61). -/
def effOffset (offset : String) : Int :=
  jsOrDefault (parseIntJS offset) 0

/-! ### Ingestion requests (POST /api/events) -/

/-- The attributes of an inbound POST /api/events request read by the body
parsers and the handler.  `rawBody` is the raw payload bytes decoded as UTF-8
(best-effort, as `Buffer#toString("utf8")` would decode them); it is `none`
when the request carries no body.  What the handler later finds in `req.body`
depends on both `contentType` and `rawBody`, because the `/api`-level
`express.json`/`express.urlencoded` middlewares (server.js lines 11-12) run
before the route-level `express.raw` and consume bodies whose content type
they claim: see `ingestBodyDispatch` below. -/
structure IngestRequest where
  source : Option String
  contentType : Option String
  headersJson : String
  rawBody : Option String

/-! ### Event store: Insert and GetByID -/

/-- `INSERT INTO events ... (id TEXT PRIMARY KEY)`: the insert fails with a
UNIQUE-constraint error when the id already exists, leaving the table
unchanged; otherwise the row is appended. -/
def insertEvent (e : Event) (db : List Event) : Except String (List Event) :=
  if db.any (fun x => x.id == e.id) then
    Except.error "UNIQUE constraint failed: events.id"
  else
    Except.ok (db ++ [e])

/-- `SELECT id, source, content_type, headers, body, received_at FROM events
WHERE id = ?` (server.js lines 80-82): first row with the given id. -/
def getById (i : String) (db : List Event) : Option Event :=
  db.find? (fun e => e.id == i)

/-! ### SQLite LIKE (used by the List endpoint's WHERE clause)

SQLite's default `LIKE` is case-insensitive for the ASCII range; `%` matches
any sequence of characters and `_` matches exactly one character. -/

/-- ASCII lower-casing, as SQLite's default LIKE folds only A-Z. -/
def lowerAscii (c : Char) : Char :=
  if 'A' ≤ c ∧ c ≤ 'Z' then Char.ofNat (c.toNat + 32) else c

/-- One non-`%` pattern character against one text character: `_` matches
anything, otherwise compare ASCII-case-insensitively. -/
def likeChar (p c : Char) : Bool :=
  p = '_' || lowerAscii p = lowerAscii c

/-- SQLite LIKE matching of a pattern against a text, both as char lists.
A `%` consumes any suffix-aligned run of text characters: the rest of the
pattern must match some suffix of the remaining text. -/
def likeMatch : List Char → List Char → Bool
  | [], cs => cs.isEmpty
  | p :: ps, cs =>
    if p = '%' then
      cs.tails.any (fun suf => likeMatch ps suf)
    else
      match cs with
      | [] => false
      | c :: cs' => likeChar p c && likeMatch ps cs'

/-- `s LIKE '%' || q || '%'`: the query wrapped in `%` on both sides. -/
def sqlLikeContains (q s : String) : Bool :=
  likeMatch ('%' :: (q.data ++ ['%'])) s.data

/-! ### List endpoint (GET /api/events, server.js lines 58-76) -/

/-- The WHERE clause (server.js lines 66-67):
`(? = '' OR source = ?) AND (? = '' OR body LIKE '%'||?||'%' OR headers LIKE '%'||?||'%')`. -/
def matchesFilter (source q : String) (e : Event) : Bool :=
  (source == "" || e.source == source) &&
    (q == "" || sqlLikeContains q e.body || sqlLikeContains q e.headers)

/-- The rows satisfying the WHERE clause, in table order. -/
def listFiltered (source q : String) (db : List Event) : List Event :=
  db.filter (matchesFilter source q)

/-- `ORDER BY received_at DESC`: descending comparison on the TEXT column. -/
def receivedDesc (a b : Event) : Prop :=
  b.received_at ≤ a.received_at

instance : DecidableRel receivedDesc := fun a b =>
  inferInstanceAs (Decidable (b.received_at ≤ a.received_at))

/-- The result set sorted by `received_at` descending. -/
def sortByReceivedDesc (xs : List Event) : List Event :=
  List.insertionSort receivedDesc xs

/-- `LIMIT ? OFFSET ?` with SQLite semantics: a negative OFFSET reads from the
start, a negative LIMIT means no limit. -/
def applyPage (lim off : Int) (xs : List Event) : List Event :=
  let dropped := xs.drop (max off 0).toNat
  if lim < 0 then dropped else dropped.take lim.toNat

/-- One row of the List response:
`SELECT id, source, content_type, received_at, substr(body,1,200) AS preview`. -/
structure ListItem where
  id : String
  source : String
  content_type : String
  received_at : String
  preview : String
deriving DecidableEq, Repr

/-- Projection of a row to the selected columns, with the 200-character body
preview. -/
def toListItem (e : Event) : ListItem :=
  { id := e.id
    source := e.source
    content_type := e.content_type
    received_at := e.received_at
    preview := String.mk (e.body.data.take 200) }

/-- The JSON body of the List response. -/
structure ListResponse where
  items : List ListItem
  limit : Int
  offset : Int
deriving DecidableEq, Repr

/-- The GET /api/events handler: query parameters default to
`source=""`, `q=""`, `limit="50"`, `offset="0"` when absent, the limit and
offset are computed as in lines 60-61, and the SQL query filters, orders and
paginates; the response reports the `lim`/`off` actually used. -/
def listHandler (source q limit offset : Option String) (db : List Event) :
    ListResponse :=
  let src := source.getD ""
  let qq := q.getD ""
  let lim := effLimit (limit.getD "50")
  let off := effOffset (offset.getD "0")
  { items := (applyPage lim off (sortByReceivedDesc (listFiltered src qq db))).map toListItem
    limit := lim
    offset := off }

/-! ### JS `Date#toISOString`

`new Date(ms).toISOString()` formats an epoch-millisecond value as
`YYYY-MM-DDTHH:mm:ss.sssZ` (expanded-year form outside 0000-9999) and throws
a RangeError on an invalid (NaN) time value. -/

/-- Civil date (year, month, day) from days since 1970-01-01, by the standard
era-based conversion used for proleptic Gregorian calendars. -/
def civilFromDays (z : Int) : Int × Nat × Nat :=
  let z' := z + 719468
  let era : Int := Int.fdiv z' 146097
  let doe : Nat := (z' - era * 146097).toNat
  let yoe : Nat := (doe - doe / 1460 + doe / 36524 - doe / 146096) / 365
  let y : Int := (yoe : Int) + era * 400
  let doy : Nat := doe - (365 * yoe + yoe / 4 - yoe / 100)
  let mp : Nat := (5 * doy + 2) / 153
  let d : Nat := doy - (153 * mp + 2) / 5 + 1
  let m : Nat := if mp < 10 then mp + 3 else mp - 9
  (if m ≤ 2 then y + 1 else y, m, d)

/-- Left-pad the decimal form of `n` with zeros to width `w`. -/
def padZeros (w : Nat) (n : Nat) : String :=
  let s := toString n
  String.mk (List.replicate (w - s.length) '0') ++ s

/-- `Date#toISOString` on a (non-NaN) epoch-millisecond value. -/
def jsToISOString (ms : Int) : String :=
  let days := Int.fdiv ms 86400000
  let msOfDay : Nat := (ms - days * 86400000).toNat
  let ymd := civilFromDays days
  let y := ymd.1
  let m := ymd.2.1
  let d := ymd.2.2
  let year :=
    if 0 ≤ y ∧ y ≤ 9999 then padZeros 4 y.toNat
    else if y < 0 then "-" ++ padZeros 6 (-y).toNat
    else "+" ++ padZeros 6 y.toNat
  year ++ "-" ++ padZeros 2 m ++ "-" ++ padZeros 2 d ++ "T" ++
    padZeros 2 (msOfDay / 3600000) ++ ":" ++
    padZeros 2 (msOfDay % 3600000 / 60000) ++ ":" ++
    padZeros 2 (msOfDay % 60000 / 1000) ++ "." ++
    padZeros 3 (msOfDay % 1000) ++ "Z"

/-! ### Purge (POST /api/admin/purge, server.js lines 127-139) -/

/-- `Math.max(1, parseInt(req.body?.days ?? "7", 10))`: an absent parameter
falls back to "7"; NaN propagates through `Math.max` (modelled by `none`). -/
def purgeDays (daysParam : Option String) : Option Int :=
  (parseIntJS (daysParam.getD "7")).map (fun v => max 1 v)

/-- `new Date(Date.now() - days*24*3600*1000).toISOString()`: `none` when
`days` is NaN, in which case `toISOString` throws a RangeError. -/
def purgeCutoff (nowMs : Int) (daysParam : Option String) : Option String :=
  (purgeDays daysParam).map (fun d => jsToISOString (nowMs - d * 24 * 3600 * 1000))

/-- `DELETE FROM events WHERE received_at < ?`: remaining rows (in order) and
the number of rows deleted (`this.changes`). -/
def deleteBefore (cutoff : String) (db : List Event) : List Event × Nat :=
  (db.filter (fun e => ¬ e.received_at < cutoff),
   (db.filter (fun e => e.received_at < cutoff)).length)

/-- The JSON body of the purge response. -/
structure PurgeResponse where
  deleted_events : Nat
  cutoff : String
deriving DecidableEq, Repr

/-- The POST /api/admin/purge handler: parses `days`, computes the cutoff and
deletes older rows; an invalid (NaN) cutoff makes `toISOString` throw, which
surfaces as an error response instead of a purge. Returns the response and the
post-request table. -/
def purgeHandler (daysParam : Option String) (nowMs : Int) (db : List Event) :
    Except String (PurgeResponse × List Event) :=
  match purgeCutoff nowMs daysParam with
  | none => Except.error "RangeError: Invalid time value"
  | some cutoff =>
      let r := deleteBefore cutoff db
      Except.ok ({ deleted_events := r.2, cutoff := cutoff }, r.1)

/-! ### Stats (GET /api/stats, server.js lines 111-124) -/

/-- Descending comparison on the per-source count (`ORDER BY c DESC`). -/
def countDesc (a b : String × Nat) : Prop :=
  b.2 ≤ a.2

instance : DecidableRel countDesc := fun a b =>
  inferInstanceAs (Decidable (b.2 ≤ a.2))

/-- `SELECT source, COUNT(*) AS c FROM events GROUP BY source ORDER BY c DESC`:
one row per distinct source value with its row count, sorted by count
descending. -/
def statsBySource (db : List Event) : List (String × Nat) :=
  List.insertionSort countDesc
    (((db.map (fun e => e.source)).dedup).map
      (fun s => (s, (db.filter (fun e => e.source == s)).length)))

/-- The JSON body of the stats response. -/
structure StatsResponse where
  total_events : Nat
  by_source : List (String × Nat)
deriving DecidableEq, Repr

/-- The GET /api/stats handler: `SELECT COUNT(*)` then the by-source
aggregation. -/
def statsHandler (db : List Event) : StatsResponse :=
  { total_events := db.length
    by_source := statsBySource db }

/-! ### `JSON.parse` and the preview endpoint (GET /api/events/:id/preview)

A JSON value as produced by `JSON.parse`; number values are kept as their
source lexeme (JS represents them as floating-point, which plays no role in
any claim), object members as the written key/value sequence. -/

inductive JsonValue where
  | null
  | bool (b : Bool)
  | num (lexeme : String)
  | str (s : String)
  | arr (elems : List JsonValue)
  | obj (members : List (String × JsonValue))

/-- The opening curly brace character. -/
def lbrace : Char := Char.ofNat 123

/-- The closing curly brace character. -/
def rbrace : Char := Char.ofNat 125

/-- JSON insignificant whitespace: space, tab, line feed, carriage return. -/
def isJsonWs (c : Char) : Bool :=
  c = ' ' || c = '\t' || c = '\n' || c = '\r'

/-- Skip insignificant whitespace. -/
def skipWs (cs : List Char) : List Char :=
  cs.dropWhile isJsonWs

/-- Value of one hexadecimal digit. -/
def hexDigitVal (c : Char) : Option Nat :=
  if '0' ≤ c ∧ c ≤ '9' then some (c.toNat - Char.toNat '0')
  else if 'a' ≤ c ∧ c ≤ 'f' then some (c.toNat - Char.toNat 'a' + 10)
  else if 'A' ≤ c ∧ c ≤ 'F' then some (c.toNat - Char.toNat 'A' + 10)
  else none

/-- Resolve a single-character escape (after the backslash). -/
def escapeChar (e : Char) : Option Char :=
  if e = '"' then some '"'
  else if e = '\\' then some '\\'
  else if e = '/' then some '/'
  else if e = 'b' then some (Char.ofNat 8)
  else if e = 'f' then some (Char.ofNat 12)
  else if e = 'n' then some '\n'
  else if e = 'r' then some '\r'
  else if e = 't' then some '\t'
  else none

/-- Parse the remainder of a JSON string (after the opening quote): the
decoded characters and the input left after the closing quote.  Unescaped
control characters are rejected, `\uXXXX` escapes decode to the code unit.
The fuel is one more than the input length, enough for one step per consumed
character. -/
def parseStringRest : Nat → List Char → Option (List Char × List Char)
  | 0, _ => none
  | _ + 1, [] => none
  | fuel + 1, c :: cs =>
    if c = '"' then some ([], cs)
    else if c = '\\' then
      match cs with
      | [] => none
      | e :: cs' =>
        if e = 'u' then
          match cs' with
          | h1 :: h2 :: h3 :: h4 :: cs'' =>
            match hexDigitVal h1, hexDigitVal h2, hexDigitVal h3, hexDigitVal h4 with
            | some a, some b, some c2, some d =>
              (parseStringRest fuel cs'').map
                (fun r => (Char.ofNat (((a * 16 + b) * 16 + c2) * 16 + d) :: r.1, r.2))
            | _, _, _, _ => none
          | _ => none
        else
          match escapeChar e with
          | none => none
          | some ch => (parseStringRest fuel cs').map (fun r => (ch :: r.1, r.2))
    else if c.toNat < 32 then none
    else (parseStringRest fuel cs).map (fun r => (c :: r.1, r.2))

/-- Parse an optional fraction part (`.` followed by at least one digit). -/
def parseFrac (cs : List Char) : Option (List Char × List Char) :=
  match cs with
  | '.' :: r =>
    let ds := r.takeWhile Char.isDigit
    if ds.isEmpty then none else some ('.' :: ds, r.dropWhile Char.isDigit)
  | _ => some ([], cs)

/-- Parse an optional exponent part (`e`/`E`, optional sign, digits). -/
def parseExp (cs : List Char) : Option (List Char × List Char) :=
  match cs with
  | [] => some ([], cs)
  | e :: r =>
    if e = 'e' ∨ e = 'E' then
      let sgr : List Char × List Char :=
        match r with
        | '+' :: r' => (['+'], r')
        | '-' :: r' => (['-'], r')
        | _ => ([], r)
      let ds := sgr.2.takeWhile Char.isDigit
      if ds.isEmpty then none
      else some (e :: (sgr.1 ++ ds), sgr.2.dropWhile Char.isDigit)
    else some ([], cs)

/-- Parse a JSON number per the grammar `-?(0|[1-9][0-9]*)(\.[0-9]+)?([eE][+-]?[0-9]+)?`,
returning its lexeme and the rest of the input. -/
def parseNumber (cs : List Char) : Option (List Char × List Char) :=
  let signRest : List Char × List Char :=
    match cs with
    | '-' :: r => (['-'], r)
    | _ => ([], cs)
  match signRest.2 with
  | [] => none
  | c :: rest =>
    if ¬ c.isDigit then none
    else
      let ipRest : List Char × List Char :=
        if c = '0' then (['0'], rest)
        else (signRest.2.takeWhile Char.isDigit, signRest.2.dropWhile Char.isDigit)
      match parseFrac ipRest.2 with
      | none => none
      | some (fp, r2) =>
        match parseExp r2 with
        | none => none
        | some (ep, r3) => some (signRest.1 ++ ipRest.1 ++ fp ++ ep, r3)

mutual

/-- Parse one JSON value (after optional whitespace), returning it and the
rest of the input; fuel bounds the recursion. -/
def parseValue : Nat → List Char → Option (JsonValue × List Char)
  | 0, _ => none
  | fuel + 1, cs =>
    match skipWs cs with
    | [] => none
    | c :: rest =>
      if c = '"' then
        (parseStringRest (rest.length + 1) rest).map
          (fun r => (JsonValue.str (String.mk r.1), r.2))
      else if c = '[' then
        match skipWs rest with
        | ']' :: r2 => some (JsonValue.arr [], r2)
        | _ => (parseElems fuel rest).map (fun r => (JsonValue.arr r.1, r.2))
      else if c = lbrace then
        match skipWs rest with
        | [] => none
        | c2 :: r2 =>
          if c2 = rbrace then some (JsonValue.obj [], r2)
          else (parseMembers fuel rest).map (fun r => (JsonValue.obj r.1, r.2))
      else if c = 't' then
        match rest with
        | 'r' :: 'u' :: 'e' :: r => some (JsonValue.bool true, r)
        | _ => none
      else if c = 'f' then
        match rest with
        | 'a' :: 'l' :: 's' :: 'e' :: r => some (JsonValue.bool false, r)
        | _ => none
      else if c = 'n' then
        match rest with
        | 'u' :: 'l' :: 'l' :: r => some (JsonValue.null, r)
        | _ => none
      else if c = '-' ∨ c.isDigit then
        (parseNumber (c :: rest)).map (fun r => (JsonValue.num (String.mk r.1), r.2))
      else none

/-- Parse the elements of a non-empty array up to and including `]`. -/
def parseElems : Nat → List Char → Option (List JsonValue × List Char)
  | 0, _ => none
  | fuel + 1, cs =>
    match parseValue fuel cs with
    | none => none
    | some (v, r) =>
      match skipWs r with
      | ',' :: r2 => (parseElems fuel r2).map (fun t => (v :: t.1, t.2))
      | ']' :: r2 => some ([v], r2)
      | _ => none

/-- Parse the members of a non-empty object up to and including the closing
brace. -/
def parseMembers : Nat → List Char → Option (List (String × JsonValue) × List Char)
  | 0, _ => none
  | fuel + 1, cs =>
    match skipWs cs with
    | [] => none
    | c :: rest =>
      if c = '"' then
        match parseStringRest (rest.length + 1) rest with
        | none => none
        | some (k, r) =>
          match skipWs r with
          | ':' :: r2 =>
            match parseValue fuel r2 with
            | none => none
            | some (v, r3) =>
              match skipWs r3 with
              | [] => none
              | c4 :: r4 =>
                if c4 = ',' then
                  (parseMembers fuel r4).map
                    (fun t => ((String.mk k, v) :: t.1, t.2))
                else if c4 = rbrace then some ([(String.mk k, v)], r4)
                else none
          | _ => none
      else none

end

/-- `JSON.parse(s)`: `none` models a thrown SyntaxError.  The fuel is ample:
each unit of fuel spent strictly advances the input or descends into a
construct opened by a consumed character. -/
def jsonParse (s : String) : Option JsonValue :=
  match parseValue (2 * s.length + 2) s.data with
  | some (v, rest) => if skipWs rest = [] then some v else none
  | none => none

/-- JS `String#includes`: substring (contiguous) containment. -/
def strIncludes (s sub : String) : Bool :=
  decide (sub.data <:+: s.data)

/-- JS `String#slice(0, 2000)`. -/
def jsSlice2000 (s : String) : String :=
  String.mk (s.data.take 2000)

/-- The three shapes of preview response (server.js lines 92-108). -/
inductive PreviewResponse where
  | notFound
  | parsed (id content_type : String) (v : JsonValue)
  | text (id content_type : String) (t : String)

/-- The GET /api/events/:id/preview handler: looks the row up; when
`content_type` contains "application/json" it tries `JSON.parse(body)` and on
success answers with the parsed value; a parse failure is caught and falls
through — like every other content type — to the 2000-character text
truncation. -/
def previewHandler (i : String) (db : List Event) : PreviewResponse :=
  match getById i db with
  | none => PreviewResponse.notFound
  | some row =>
    if strIncludes row.content_type "application/json" then
      match jsonParse row.body with
      | some v => PreviewResponse.parsed row.id row.content_type v
      | none => PreviewResponse.text row.id row.content_type (jsSlice2000 row.body)
    else PreviewResponse.text row.id row.content_type (jsSlice2000 row.body)

/-! ### Ingestion (POST /api/events, server.js lines 11-12 and 35-55)

`express.json` and `express.urlencoded` are mounted on `/api` (lines 11-12)
ahead of the route-level `express.raw` (line 35).  Middleware runs in
registration order and a body parser that consumed the stream makes every
later parser skip, so by the time the handler runs, `req.body` is a parsed JS
value for `application/json` and `application/x-www-form-urlencoded` requests
(or the request was already rejected with a 400 on a JSON syntax error), and
a raw `Buffer` only for the remaining content types. -/

/-- The media type of a content-type header value: the part before any `;`,
trimmed and ASCII-lowercased, as the type-is matcher compares it. -/
def mediaTypeOf (ct : String) : String :=
  let before := ct.data.takeWhile (fun c => c ≠ ';')
  let trimmed :=
    ((before.dropWhile Char.isWhitespace).reverse.dropWhile Char.isWhitespace).reverse
  String.mk (trimmed.map lowerAscii)

/-- Does `express.json` (type "application/json") claim this request? -/
def isJsonType (ct : Option String) : Bool :=
  match ct with
  | some s => mediaTypeOf s == "application/json"
  | none => false

/-- Does `express.urlencoded` (type "application/x-www-form-urlencoded")
claim this request? -/
def isUrlencodedType (ct : Option String) : Bool :=
  match ct with
  | some s => mediaTypeOf s == "application/x-www-form-urlencoded"
  | none => false

/-- The shapes `req.body` can have when the handler runs. -/
inductive ReqBody where
  /-- `express.raw` consumed the stream: a `Buffer` (kept as its UTF-8 text). -/
  | buffer (text : String)
  /-- `express.json` parsed the body into a JS value. -/
  | jsonParsed (v : JsonValue)
  /-- `express.urlencoded` parsed the body; `qs` always yields a plain
  object (its precise fields never matter: a plain object stringifies to
  "[object Object]"). -/
  | formObject
  /-- No parser ran: `req.body` is still the initial empty object. -/
  | emptyInit

/-- The `express.json` body parser in its default strict mode: an empty body
yields the empty object; otherwise the first non-whitespace character must
open an object or an array and the whole body must parse as JSON, else the
middleware responds 400 (`entity.parse.failed`) and the handler never runs. -/
def expressJsonBody (raw : String) : Except String JsonValue :=
  if raw.isEmpty then Except.ok (JsonValue.obj [])
  else
    match raw.data.dropWhile isJsonWs with
    | [] => Except.error "entity.parse.failed"
    | c :: _ =>
      if c = lbrace ∨ c = '[' then
        match jsonParse raw with
        | some v => Except.ok v
        | none => Except.error "entity.parse.failed"
      else Except.error "entity.parse.failed"

/-- The `/api` body-parsing chain as it affects POST /api/events: a request
without a body is skipped by every parser; `express.json` claims JSON content
types (parsing or 400-ing the body), `express.urlencoded` claims form content
types, the route's `express.raw` (`type: "*/*"`) takes everything else that
has a content type; with a body but no content-type header no parser matches
and `req.body` stays the initial empty object. -/
def ingestBodyDispatch (ct : Option String) (raw : Option String) :
    Except String ReqBody :=
  match raw with
  | none => Except.ok ReqBody.emptyInit
  | some payload =>
    if isJsonType ct then
      (expressJsonBody payload).map ReqBody.jsonParsed
    else if isUrlencodedType ct then
      Except.ok ReqBody.formObject
    else if ct.isSome then
      Except.ok (ReqBody.buffer payload)
    else
      Except.ok ReqBody.emptyInit

mutual

/-- JS `String(v)` for a value produced by `JSON.parse`: plain objects give
"[object Object]", arrays join their elements with commas.  Number values are
rendered by their lexeme, which agrees with JS output for canonically written
numbers (no claim inspects the other cases). -/
def jsStringOfParsed : JsonValue → String
  | JsonValue.obj _ => "[object Object]"
  | JsonValue.arr xs => String.intercalate "," (jsArrayElems xs)
  | JsonValue.str s => s
  | JsonValue.num lexeme => lexeme
  | JsonValue.bool b => if b then "true" else "false"
  | JsonValue.null => "null"

/-- Element stringification of `Array#join`: a null element becomes the
empty string. -/
def jsArrayElems : List JsonValue → List String
  | [] => []
  | JsonValue.null :: vs => "" :: jsArrayElems vs
  | v :: vs => jsStringOfParsed v :: jsArrayElems vs

end

/-- `Buffer.isBuffer(req.body) ? req.body.toString("utf8") : String(req.body || "")`
(server.js line 42) for each shape `req.body` can have: a Buffer yields its
UTF-8 text; parsed values and the untouched empty object are truthy JS
objects and stringify accordingly. -/
def handlerBodyText : ReqBody → String
  | ReqBody.buffer s => s
  | ReqBody.jsonParsed v => jsStringOfParsed v
  | ReqBody.formObject => "[object Object]"
  | ReqBody.emptyInit => "[object Object]"

/-- The event built by the POST /api/events handler (server.js lines 37-44)
given `req.body` as the middleware chain left it: `source` from the query
parameter (`(req.query.source || "").toString()`), `content_type` from the
header with an octet-stream default, `headers` the serialized header map,
`body` from `req.body`. -/
def mkEvent (id : String) (receivedAt : String) (req : IngestRequest)
    (reqBody : ReqBody) : Event :=
  { id := id
    source := req.source.getD ""
    content_type := req.contentType.getD "application/octet-stream"
    headers := req.headersJson
    body := handlerBodyText reqBody
    received_at := receivedAt }

/-- The full ingestion path for POST /api/events: the body-parsing middleware
chain, then the handler's event construction; a 400 from the JSON parser
reaches the caller and no record is created. -/
def ingestEvent (id : String) (receivedAt : String) (req : IngestRequest) :
    Except String Event :=
  (ingestBodyDispatch req.contentType req.rawBody).map (mkEvent id receivedAt req)

/-! ### Vocabulary for the List matching rule -/

/-- ASCII-case-insensitive substring containment: what `LIKE '%'||q||'%'`
amounts to for a query without LIKE wildcards. -/
def ciInfix (q s : String) : Prop :=
  (q.data.map lowerAscii) <:+: (s.data.map lowerAscii)

instance (q s : String) : Decidable (ciInfix q s) :=
  List.decidableInfix _ _

/-- Following the spec's words for the List matching rule of the SQL-backed
variants: the query as a case-sensitive substring of the record's body or of
its serialized headers. -/
def specCsSubstring (q s : String) : Prop :=
  q.data <:+: s.data

instance (q s : String) : Decidable (specCsSubstring q s) :=
  List.decidableInfix _ _

instance : IsTotal Event receivedDesc :=
  ⟨fun a b => le_total b.received_at a.received_at⟩

instance : IsTrans Event receivedDesc :=
  ⟨fun _ _ _ h1 h2 => le_trans h2 h1⟩

instance : IsTotal (String × Nat) countDesc :=
  ⟨fun a b => le_total b.2 a.2⟩

instance : IsTrans (String × Nat) countDesc :=
  ⟨fun _ _ _ h1 h2 => le_trans h2 h1⟩

/-! ## Theorems -/

/-- A successful insert appended the row, and the id was fresh. -/
theorem insertEvent_ok_iff (e : Event) (db db' : List Event)
    (h : insertEvent e db = Except.ok db') :
    db' = db ++ [e] ∧ db.any (fun x => x.id == e.id) = false := by
  unfold insertEvent at h
  split at h
  · cases h
  · rename_i hc
    refine ⟨?_, by simpa using hc⟩
    injection h with h'
    exact h'.symm

/-- Looking up a freshly appended row finds exactly that row. -/
theorem getById_append_of_fresh (e : Event) (db : List Event)
    (h : db.any (fun x => x.id == e.id) = false) :
    getById e.id (db ++ [e]) = some e := by
  unfold getById
  rw [List.find?_append]
  have h1 : db.find? (fun x => x.id == e.id) = none := by
    rw [List.find?_eq_none]
    intro x hx
    have := List.any_eq_false.mp h x hx
    simpa using this
  rw [h1]
  simp

/-- C1: the body-parsing middleware ahead of the handler makes the stored
body depend on the content type, contrary to the claim (and to the code's own
"Ingest uses RAW below" comment): the same raw payload is stored as
"[object Object]" under content type "application/json" (the parsed object is
stringified) but verbatim under "text/plain"; a malformed JSON body is
rejected with a 400 and creates no record. -/
theorem c1_middleware_interception :
    ingestEvent "id1" "t1"
        ⟨some "s", some "application/json", "hh", some "\x7b\"a\":1\x7d"⟩
        = Except.ok ⟨"id1", "s", "application/json", "hh", "[object Object]", "t1"⟩ ∧
      ingestEvent "id1" "t1"
          ⟨some "s", some "text/plain", "hh", some "\x7b\"a\":1\x7d"⟩
        = Except.ok ⟨"id1", "s", "text/plain", "hh", "\x7b\"a\":1\x7d", "t1"⟩ ∧
      ingestEvent "id1" "t1"
          ⟨some "s", some "application/json", "hh", some "\x7bmalformed"⟩
        = Except.error "entity.parse.failed" ∧
      ("[object Object]" : String) ≠ "\x7b\"a\":1\x7d" := by
  refine ⟨?_, rfl, rfl, by decide⟩
  have h1 : ingestBodyDispatch (some "application/json") (some "\x7b\"a\":1\x7d")
      = Except.ok (ReqBody.jsonParsed (JsonValue.obj [("a", JsonValue.num "1")])) := rfl
  simp [ingestEvent, h1, Except.map, mkEvent, handlerBodyText, jsStringOfParsed]

/-- C2: immediately after a successful Insert, GetByID with the inserted id
returns a record equal to the inserted one in every field. -/
theorem c2_getById_after_insert (e : Event) (db db' : List Event)
    (h : insertEvent e db = Except.ok db') :
    getById e.id db' = some e := by
  obtain ⟨h1, h2⟩ := insertEvent_ok_iff e db db' h
  subst h1
  exact getById_append_of_fresh e db h2

/-- Witness for C2 at a concrete insert into the empty table. -/
theorem c2_getById_after_insert_witness :
    getById "a1" ([⟨"a1", "s", "ct", "h", "b", "t"⟩] : List Event)
      = some ⟨"a1", "s", "ct", "h", "b", "t"⟩ :=
  c2_getById_after_insert ⟨"a1", "s", "ct", "h", "b", "t"⟩ []
    [⟨"a1", "s", "ct", "h", "b", "t"⟩] rfl

/-- C7: inserting a second event with an already-present id fails with the
UNIQUE-constraint (DuplicateKey) error, and the previously stored record is
still returned unchanged by GetByID. -/
theorem c7_duplicate_insert (e e' : Event) (db db' : List Event)
    (h : insertEvent e db = Except.ok db') (hid : e'.id = e.id) :
    insertEvent e' db' = Except.error "UNIQUE constraint failed: events.id" ∧
      getById e.id db' = some e := by
  obtain ⟨h1, h2⟩ := insertEvent_ok_iff e db db' h
  subst h1
  constructor
  · unfold insertEvent
    rw [if_pos]
    exact List.any_eq_true.mpr ⟨e, by simp, by simp [hid]⟩
  · exact getById_append_of_fresh e db h2

/-- Witness for C7: the second insert with the same id "a1" fails and the
first record survives. -/
theorem c7_duplicate_insert_witness :
    insertEvent ⟨"a1", "s2", "ct2", "h2", "b2", "t2"⟩
          ([⟨"a1", "s", "ct", "h", "b", "t"⟩] : List Event)
        = Except.error "UNIQUE constraint failed: events.id" ∧
      getById "a1" ([⟨"a1", "s", "ct", "h", "b", "t"⟩] : List Event)
        = some ⟨"a1", "s", "ct", "h", "b", "t"⟩ :=
  c7_duplicate_insert ⟨"a1", "s", "ct", "h", "b", "t"⟩
    ⟨"a1", "s2", "ct2", "h2", "b2", "t2"⟩ [] [⟨"a1", "s", "ct", "h", "b", "t"⟩] rfl rfl

/-- C3 counterexample: the claim says the effective limit is clamped into
[1, 200] and the effective offset to ≥ 0, but `limit=-5`/`offset=-3` pass
through unclamped and are reported as such. -/
theorem c3_counterexample :
    (listHandler none none (some "-5") (some "-3") []).limit = -5 ∧
      (listHandler none none (some "-5") (some "-3") []).offset = -3 ∧
      ¬ (1 ≤ (listHandler none none (some "-5") (some "-3") []).limit) ∧
      ¬ (0 ≤ (listHandler none none (some "-5") (some "-3") []).offset) := by
  decide

/-- C3 (amended): the effective limit is `min(v, 200)` for a parsed non-zero
limit `v` (so 500 yields 200) and 50 when the limit is non-numeric or 0; it is
never above 200 but is not raised to 1 for negative requests.  The effective
offset is the parsed non-zero value (negative values included) and 0 when the
offset is non-numeric or 0.  The List response reports exactly these effective
values, with defaults 50 and 0 for absent parameters. -/
theorem c3_limit_offset :
    (∀ s v, parseIntJS s = some v → v ≠ 0 → effLimit s = min v 200) ∧
      (∀ s, parseIntJS s = none → effLimit s = 50) ∧
      effLimit "500" = 200 ∧ effLimit "0" = 50 ∧ effLimit "abc" = 50 ∧
      (∀ s, effLimit s ≤ 200) ∧
      (∀ s v, parseIntJS s = some v → v ≠ 0 → effOffset s = v) ∧
      (∀ s, parseIntJS s = none → effOffset s = 0) ∧
      (∀ src q lim off db,
        (listHandler src q lim off db).limit = effLimit (lim.getD "50") ∧
          (listHandler src q lim off db).offset = effOffset (off.getD "0")) ∧
      (∀ src q db, (listHandler src q none none db).limit = 50 ∧
        (listHandler src q none none db).offset = 0) := by
  refine ⟨?_, ?_, by decide, by decide, by decide, ?_, ?_, ?_, ?_, ?_⟩
  · intro s v h hv
    simp [effLimit, jsOrDefault, h, hv]
  · intro s h
    simp [effLimit, jsOrDefault, h]
  · intro s
    exact min_le_right _ _
  · intro s v h hv
    simp [effOffset, jsOrDefault, h, hv]
  · intro s h
    simp [effOffset, jsOrDefault, h]
  · intro src q lim off db
    exact ⟨rfl, rfl⟩
  · intro src q db
    exact ⟨rfl, rfl⟩

/-- Witness for C3 (amended) at concrete parameter strings. -/
theorem c3_limit_offset_witness :
    effLimit "7" = min 7 200 ∧ effOffset "-3" = -3 ∧ effLimit "abc" = 50 :=
  ⟨c3_limit_offset.1 "7" 7 (by decide) (by decide),
   c3_limit_offset.2.2.2.2.2.2.1 "-3" (-3) (by decide) (by decide),
   c3_limit_offset.2.1 "abc" (by decide)⟩

/-- C4: List results are sorted by `received_at` descending: at any two
positions i < j of the returned items, item i's `received_at` is ≥ item j's. -/
theorem c4_sorted_desc (source q limit offset : Option String) (db : List Event) :
    (listHandler source q limit offset db).items.Pairwise
      (fun a b => b.received_at ≤ a.received_at) := by
  show ((applyPage (effLimit (limit.getD "50")) (effOffset (offset.getD "0"))
      (sortByReceivedDesc (listFiltered (source.getD "") (q.getD "") db))).map
        toListItem).Pairwise (fun a b => b.received_at ≤ a.received_at)
  rw [List.pairwise_map]
  have hs : List.Pairwise receivedDesc
      (sortByReceivedDesc (listFiltered (source.getD "") (q.getD "") db)) :=
    List.sorted_insertionSort receivedDesc _
  have hsub : List.Sublist
      (applyPage (effLimit (limit.getD "50")) (effOffset (offset.getD "0"))
        (sortByReceivedDesc (listFiltered (source.getD "") (q.getD "") db)))
      (sortByReceivedDesc (listFiltered (source.getD "") (q.getD "") db)) := by
    unfold applyPage
    split
    · exact List.drop_sublist _ _
    · exact (List.take_sublist _ _).trans (List.drop_sublist _ _)
  exact (List.Pairwise.sublist hsub hs).imp (fun h => h)

/-- Unfolding equation: non-`%` pattern head against the empty text. -/
theorem likeMatch_plain_nil (p : Char) (hp : p ≠ '%') (ps : List Char) :
    likeMatch (p :: ps) [] = false := by
  rw [likeMatch, if_neg hp]

/-- Unfolding equation: non-`%` pattern head against a non-empty text. -/
theorem likeMatch_plain_cons (p : Char) (hp : p ≠ '%') (ps : List Char)
    (c : Char) (cs : List Char) :
    likeMatch (p :: ps) (c :: cs) = (likeChar p c && likeMatch ps cs) := by
  rw [likeMatch, if_neg hp]

/-- Matching a pattern that starts with `%`: the rest of the pattern may start
matching after dropping any number of text characters. -/
theorem likeMatch_percent_iff (ps cs : List Char) :
    likeMatch ('%' :: ps) cs = true ↔ ∃ n, likeMatch ps (cs.drop n) = true := by
  have hunf : likeMatch ('%' :: ps) cs = cs.tails.any (fun suf => likeMatch ps suf) := by
    cases cs with
    | nil => rw [likeMatch]; simp
    | cons c cs' => rw [likeMatch]; simp
  rw [hunf, List.any_eq_true]
  constructor
  · rintro ⟨suf, hmem, hsuf⟩
    obtain ⟨t, ht⟩ := (List.mem_tails _ _).mp hmem
    refine ⟨t.length, ?_⟩
    rw [← ht, List.drop_left]
    exact hsuf
  · rintro ⟨n, hn⟩
    exact ⟨cs.drop n, (List.mem_tails _ _).mpr (List.drop_suffix n cs), hn⟩

/-- Matching a wildcard-free literal followed by `%`: exactly the
ASCII-case-insensitive prefixes of the text. -/
theorem likeMatch_literal_percent (q : List Char)
    (hq : ∀ c ∈ q, c ≠ '%' ∧ c ≠ '_') (cs : List Char) :
    (likeMatch (q ++ ['%']) cs = true ↔ (q.map lowerAscii) <+: (cs.map lowerAscii)) := by
  induction q generalizing cs with
  | nil =>
    simp only [List.nil_append, List.map_nil]
    constructor
    · intro _
      exact List.nil_prefix
    · intro _
      apply (likeMatch_percent_iff [] cs).mpr
      exact ⟨cs.length, by simp [likeMatch]⟩
  | cons p q' ih =>
    have hp := hq p (List.mem_cons_self p q')
    cases cs with
    | nil =>
      rw [List.cons_append, likeMatch_plain_nil p hp.1]
      simp only [List.map_cons, List.map_nil]
      constructor
      · intro h
        cases h
      · intro h
        have := h.length_le
        simp at this
    | cons c cs' =>
      rw [List.cons_append, likeMatch_plain_cons p hp.1, Bool.and_eq_true]
      simp only [List.map_cons, List.cons_prefix_cons]
      rw [ih (fun x hx => hq x (List.mem_cons_of_mem _ hx)) cs']
      unfold likeChar
      simp [hp.2]

/-- Lifting "prefix of some suffix" to substring containment. -/
theorem substringViaDrop {α : Type} (xs ys : List α) :
    (∃ n, xs <+: ys.drop n) ↔ xs <:+: ys := by
  constructor
  · rintro ⟨n, t, ht⟩
    refine ⟨ys.take n, t, ?_⟩
    rw [List.append_assoc, ht, List.take_append_drop]
  · rintro ⟨s, t, hst⟩
    refine ⟨s.length, t, ?_⟩
    rw [← hst, List.append_assoc, List.drop_left]

/-- For a query without LIKE wildcards, `s LIKE '%'||q||'%'` is exactly
ASCII-case-insensitive substring containment. -/
theorem sqlLikeContains_iff (q s : String)
    (hq : ∀ c ∈ q.data, c ≠ '%' ∧ c ≠ '_') :
    sqlLikeContains q s = true ↔ ciInfix q s := by
  unfold sqlLikeContains ciInfix
  rw [likeMatch_percent_iff]
  constructor
  · rintro ⟨n, hn⟩
    have h1 := (likeMatch_literal_percent q.data hq _).mp hn
    rw [List.map_drop] at h1
    exact (substringViaDrop _ _).mp ⟨n, h1⟩
  · intro h
    obtain ⟨n, h1⟩ := (substringViaDrop _ _).mpr h
    refine ⟨n, (likeMatch_literal_percent q.data hq _).mpr ?_⟩
    rw [List.map_drop]
    exact h1

/-- C5 counterexample: with query "A" against a record whose body is "a", the
SQL-backed matching returns the record (SQLite LIKE is ASCII-case-insensitive)
although "A" is not a case-sensitive substring of its body or headers, so the
claimed "returned iff case-sensitive substring" equivalence is false. -/
theorem c5_counterexample :
    ¬ ((⟨"e1", "", "text/plain", "hh", "a", "t1"⟩ : Event) ∈
          listFiltered "" "A" [⟨"e1", "", "text/plain", "hh", "a", "t1"⟩] ↔
        (⟨"e1", "", "text/plain", "hh", "a", "t1"⟩ : Event) ∈
            ([⟨"e1", "", "text/plain", "hh", "a", "t1"⟩] : List Event) ∧
          (("" : String) = "" ∨ ("" : String) = "") ∧
          (("A" : String) = "" ∨ specCsSubstring "A" "a" ∨ specCsSubstring "A" "hh")) := by
  decide

/-- C5 (amended): for a query without LIKE wildcards (`%`, `_`), a record
passes the List filter iff (the source filter is empty or the record's source
equals it exactly) and (the query is empty or an ASCII-case-insensitive
substring of the body or of the serialized headers); queries containing `%` or
`_` are interpreted with LIKE wildcard semantics instead. -/
theorem c5_match_rule (src q : String) (db : List Event) (e : Event)
    (hq : ∀ c ∈ q.data, c ≠ '%' ∧ c ≠ '_') :
    e ∈ listFiltered src q db ↔
      e ∈ db ∧ (src = "" ∨ e.source = src) ∧
        (q = "" ∨ ciInfix q e.body ∨ ciInfix q e.headers) := by
  unfold listFiltered matchesFilter
  simp only [List.mem_filter, Bool.and_eq_true, Bool.or_eq_true, beq_iff_eq,
    sqlLikeContains_iff q e.body hq, sqlLikeContains_iff q e.headers hq, or_assoc]

/-- Witness for C5 (amended): query "a" finds the record whose body contains
"A", case-insensitively. -/
theorem c5_match_rule_witness :
    ((⟨"e2", "s", "ct", "hh", "xAy", "t1"⟩ : Event) ∈
        listFiltered "" "a" [⟨"e2", "s", "ct", "hh", "xAy", "t1"⟩] ↔
      (⟨"e2", "s", "ct", "hh", "xAy", "t1"⟩ : Event) ∈
          ([⟨"e2", "s", "ct", "hh", "xAy", "t1"⟩] : List Event) ∧
        (("" : String) = "" ∨ ("s" : String) = "") ∧
        (("a" : String) = "" ∨ ciInfix "a" "xAy" ∨ ciInfix "a" "hh")) :=
  c5_match_rule "" "a" [⟨"e2", "s", "ct", "hh", "xAy", "t1"⟩]
    ⟨"e2", "s", "ct", "hh", "xAy", "t1"⟩ (by decide)

/-- C6: purge with a parsed `days` value computes the cutoff as now minus
`days`·24h, deletes exactly the rows with `received_at` strictly below the
cutoff (all others survive unchanged, in order), reports the number deleted,
and a second run at the same instant deletes 0 and leaves the table as is.
The `days` parameter defaults to 7 when absent and is floored at 1. -/
theorem c6_purge_semantics :
    purgeDays none = some 7 ∧
      (∀ s v, parseIntJS s = some v → purgeDays (some s) = some (max 1 v)) ∧
      (∀ daysParam nowMs db d, purgeDays daysParam = some d →
        ∃ resp db2,
          purgeHandler daysParam nowMs db = Except.ok (resp, db2) ∧
            resp.cutoff = jsToISOString (nowMs - d * 24 * 3600 * 1000) ∧
            db2 = db.filter (fun e => ¬ e.received_at < resp.cutoff) ∧
            (∀ e ∈ db, e.received_at < resp.cutoff ↔ e ∉ db2) ∧
            resp.deleted_events
              = (db.filter (fun e => e.received_at < resp.cutoff)).length ∧
            ∃ resp2,
              purgeHandler daysParam nowMs db2 = Except.ok (resp2, db2) ∧
                resp2.deleted_events = 0) := by
  refine ⟨rfl, ?_, ?_⟩
  · intro s v h
    simp [purgeDays, h]
  · intro daysParam nowMs db d h
    have hcut : purgeCutoff nowMs daysParam
        = some (jsToISOString (nowMs - d * 24 * 3600 * 1000)) := by
      simp [purgeCutoff, h]
    refine ⟨⟨(db.filter
        (fun e => e.received_at < jsToISOString (nowMs - d * 24 * 3600 * 1000))).length,
      jsToISOString (nowMs - d * 24 * 3600 * 1000)⟩,
      db.filter (fun e => ¬ e.received_at < jsToISOString (nowMs - d * 24 * 3600 * 1000)),
      ?_, rfl, rfl, ?_, rfl, ?_⟩
    · simp [purgeHandler, hcut, deleteBefore]
    · intro e he
      constructor
      · intro hlt hmem
        rw [List.mem_filter] at hmem
        simp only [decide_eq_true_eq] at hmem
        exact hmem.2 hlt
      · intro hnot
        by_contra hge
        exact hnot (List.mem_filter.mpr ⟨he, by simpa using hge⟩)
    · have h2 : (db.filter
            (fun e => ¬ e.received_at < jsToISOString (nowMs - d * 24 * 3600 * 1000))).filter
            (fun e => e.received_at < jsToISOString (nowMs - d * 24 * 3600 * 1000)) = [] := by
        apply List.filter_eq_nil_iff.mpr
        intro e he
        rw [List.mem_filter] at he
        simpa using he.2
      have h3 : (db.filter
            (fun e => ¬ e.received_at < jsToISOString (nowMs - d * 24 * 3600 * 1000))).filter
            (fun e => ¬ e.received_at < jsToISOString (nowMs - d * 24 * 3600 * 1000))
          = db.filter
            (fun e => ¬ e.received_at < jsToISOString (nowMs - d * 24 * 3600 * 1000)) := by
        apply List.filter_eq_self.mpr
        intro e he
        rw [List.mem_filter] at he
        exact he.2
      refine ⟨⟨0, jsToISOString (nowMs - d * 24 * 3600 * 1000)⟩, ?_, rfl⟩
      simp [purgeHandler, hcut, deleteBefore, h2, h3]

/-- Witness for C6 at `days` absent (default 7), now = 0, over a two-row
table with one stale and one fresh row. -/
theorem c6_purge_semantics_witness :
    ∃ resp db2,
      purgeHandler none 0
          ([⟨"old", "", "ct", "hh", "b", "1969-12-01T00:00:00.000Z"⟩,
            ⟨"new", "", "ct", "hh", "b", "1970-01-01T00:00:00.000Z"⟩] : List Event)
        = Except.ok (resp, db2) ∧
        resp.cutoff = jsToISOString (0 - 7 * 24 * 3600 * 1000) ∧
        db2 = ([⟨"old", "", "ct", "hh", "b", "1969-12-01T00:00:00.000Z"⟩,
            ⟨"new", "", "ct", "hh", "b", "1970-01-01T00:00:00.000Z"⟩] : List Event).filter
          (fun e => ¬ e.received_at < resp.cutoff) ∧
        (∀ e ∈ ([⟨"old", "", "ct", "hh", "b", "1969-12-01T00:00:00.000Z"⟩,
            ⟨"new", "", "ct", "hh", "b", "1970-01-01T00:00:00.000Z"⟩] : List Event),
          e.received_at < resp.cutoff ↔ e ∉ db2) ∧
        resp.deleted_events
          = (([⟨"old", "", "ct", "hh", "b", "1969-12-01T00:00:00.000Z"⟩,
              ⟨"new", "", "ct", "hh", "b", "1970-01-01T00:00:00.000Z"⟩] : List Event).filter
            (fun e => e.received_at < resp.cutoff)).length ∧
        ∃ resp2,
          purgeHandler none 0 db2 = Except.ok (resp2, db2) ∧
            resp2.deleted_events = 0 :=
  c6_purge_semantics.2.2 none 0
    [⟨"old", "", "ct", "hh", "b", "1969-12-01T00:00:00.000Z"⟩,
     ⟨"new", "", "ct", "hh", "b", "1970-01-01T00:00:00.000Z"⟩] 7 rfl

/-- C8: the preview of a stored record parses the body as JSON exactly when
the content type contains "application/json" and the body parses; a parse
failure, or any other content type, falls back to the body truncated to 2000
characters — the parse failure never surfaces as an error. -/
theorem c8_preview_rule (i : String) (db : List Event) (row : Event)
    (h : getById i db = some row) :
    (∀ v, strIncludes row.content_type "application/json" = true →
        jsonParse row.body = some v →
        previewHandler i db = PreviewResponse.parsed row.id row.content_type v) ∧
      (strIncludes row.content_type "application/json" = true →
        jsonParse row.body = none →
        previewHandler i db
          = PreviewResponse.text row.id row.content_type (jsSlice2000 row.body)) ∧
      (strIncludes row.content_type "application/json" = false →
        previewHandler i db
          = PreviewResponse.text row.id row.content_type (jsSlice2000 row.body)) := by
  refine ⟨?_, ?_, ?_⟩
  · intro v hct hv
    simp [previewHandler, h, hct, hv]
  · intro hct hv
    simp [previewHandler, h, hct, hv]
  · intro hct
    simp [previewHandler, h, hct]

/-- Witness for C8: a stored record with JSON content type and body "[1]" is
previewed as the parsed array. -/
theorem c8_preview_rule_witness :
    previewHandler "p1" ([⟨"p1", "", "application/json", "hh", "[1]", "t1"⟩] : List Event)
      = PreviewResponse.parsed "p1" "application/json"
          (JsonValue.arr [JsonValue.num "1"]) :=
  (c8_preview_rule "p1" [⟨"p1", "", "application/json", "hh", "[1]", "t1"⟩]
      ⟨"p1", "", "application/json", "hh", "[1]", "t1"⟩ rfl).1
    (JsonValue.arr [JsonValue.num "1"]) rfl rfl

/-- C9 counterexample: a purge request whose `days` value is present but
non-numeric does not succeed with the default — `Math.max(1, NaN)` is NaN and
`toISOString` throws, so the request fails. -/
theorem c9_counterexample :
    purgeHandler (some "abc") 0 [] = Except.error "RangeError: Invalid time value" ∧
      ¬ ∃ r, purgeHandler (some "abc") 0 [] = Except.ok r := by
  have herr : purgeHandler (some "abc") 0 ([] : List Event)
      = Except.error "RangeError: Invalid time value" := rfl
  refine ⟨herr, ?_⟩
  rintro ⟨r, hr⟩
  rw [herr] at hr
  cases hr

/-- C9 (amended): unparseable `limit`/`offset` values are defaulted (50 and 0)
and the List request succeeds, but an unparseable `days` value in purge
propagates NaN into the cutoff computation and the request fails with a
RangeError instead of using the default. -/
theorem c9_unparseable_params :
    (∀ src q (s : String) off db, parseIntJS s = none →
        (listHandler src q (some s) off db).limit = 50) ∧
      (∀ src q lim (s : String) db, parseIntJS s = none →
        (listHandler src q lim (some s) db).offset = 0) ∧
      (∀ (s : String) nowMs db, parseIntJS s = none →
        purgeHandler (some s) nowMs db
          = Except.error "RangeError: Invalid time value") := by
  refine ⟨?_, ?_, ?_⟩
  · intro src q s off db h
    show effLimit s = 50
    simp [effLimit, jsOrDefault, h]
  · intro src q lim s db h
    show effOffset s = 0
    simp [effOffset, jsOrDefault, h]
  · intro s nowMs db h
    simp [purgeHandler, purgeCutoff, purgeDays, h]

/-- Witness for C9 (amended) at the non-numeric string "abc". -/
theorem c9_unparseable_params_witness :
    (listHandler none none (some "abc") none []).limit = 50 ∧
      (listHandler none none none (some "abc") []).offset = 0 ∧
      purgeHandler (some "abc") 5 []
        = Except.error "RangeError: Invalid time value" :=
  ⟨c9_unparseable_params.1 none none "abc" none [] rfl,
   c9_unparseable_params.2.1 none none none "abc" [] rfl,
   c9_unparseable_params.2.2 "abc" 5 [] rfl⟩

/-- The filtered row count for one source equals that source's multiplicity in
the column. -/
theorem length_filter_source (db : List Event) (s : String) :
    (db.filter (fun e => e.source == s)).length
      = (db.map (fun e => e.source)).count s := by
  induction db with
  | nil => rfl
  | cons e t ih =>
    simp only [List.filter_cons, List.map_cons, List.count_cons]
    by_cases h : e.source = s
    · simp [h, ih]
    · simp [h, ih]

/-- C10: in every stats response, `total_events` equals the sum of the
per-source counts in `by_source` — each stored record belongs to exactly one
source group (the empty source forming its own group). -/
theorem c10_stats_total (db : List Event) :
    ((statsHandler db).by_source.map Prod.snd).sum = (statsHandler db).total_events := by
  show ((statsBySource db).map Prod.snd).sum = db.length
  unfold statsBySource
  have hperm := List.perm_insertionSort countDesc
    (((db.map (fun e => e.source)).dedup).map
      (fun s => (s, (db.filter (fun e => e.source == s)).length)))
  calc ((List.insertionSort countDesc
        (((db.map (fun e => e.source)).dedup).map
          (fun s => (s, (db.filter (fun e => e.source == s)).length)))).map Prod.snd).sum
      = ((((db.map (fun e => e.source)).dedup).map
          (fun s => (s, (db.filter (fun e => e.source == s)).length))).map Prod.snd).sum :=
        (hperm.map Prod.snd).sum_eq
    _ = (((db.map (fun e => e.source)).dedup).map
          (fun s => (db.map (fun e => e.source)).count s)).sum := by
        rw [List.map_map]
        apply congrArg
        apply List.map_eq_map_iff.mpr
        intro s _
        exact length_filter_source db s
    _ = (db.map (fun e => e.source)).length :=
        List.sum_map_count_dedup_eq_length _
    _ = db.length := List.length_map _ _

end WebhookInbox
